import Mathlib

/-!
Verification development for the group-trip-planner consensus and
route-planning engine.

The Python sources are shallowly embedded as Lean functions:

* Machine floats are modelled by the rationals; the two transcendental
  kernels (the haversine great-circle distance of
  algorithms/optimizer.py and the cosine-similarity kernel of
  algorithms/scoring.py) cannot be represented exactly, so the code
  built on top of them is parameterised over the kernel (a pairwise
  distance function, respectively a similarity function), and the
  cosine kernel itself is modelled once over the reals where its
  algebraic identities live.
* Python round is round-half-to-even, Python int() truncates toward
  zero; both are embedded explicitly on the rationals.
* Python dicts (insertion ordered) are association lists; dict.get
  with a default is Option.getD.
* The regions file of utils/data_handler.py is modelled by an explicit
  file state, and the try/except around json.load by an Except value
  whose handler clauses mirror the exception classes named in the
  source.
-/

namespace TripPlanner

/-- Python int() applied to a rational: truncation toward zero. -/
def pyTrunc (q : ℚ) : ℤ := if 0 ≤ q then ⌊q⌋ else ⌈q⌉

/-- Python round() applied to a rational: round half to even. -/
def pyRound (q : ℚ) : ℤ :=
  let f := ⌊q⌋
  let r := q - (f : ℚ)
  if r < 1/2 then f
  else if 1/2 < r then f + 1
  else if f % 2 = 0 then f else f + 1

/-- Python round(q, 1): one decimal digit kept. -/
def pyRound1 (q : ℚ) : ℚ := (pyRound (q * 10) : ℚ) / 10

/-- Static city record from the regions database (the fields the core
algorithms read).  The 7 activity dimensions are adventure, culture, food,
nightlife, beach, nature, shopping, in this fixed order. -/
structure CityData where
  activities : Fin 7 → ℚ
  avgDailyCost : String → Option ℚ
  midRangeCost : ℚ
  typicalDays : Option ℚ

/-- A cities database: dict city name to CityData, missing keys allowed. -/
def CityDb := String → Option CityData

/-- cities_database.get(city, dict()).get(typical days key, 2) from
allocate_days_to_cities in algorithms/consensus.py. -/
def typicalDaysOf (db : CityDb) (city : String) : ℚ :=
  match db city with
  | none => 2
  | some cd => cd.typicalDays.getD 2

/-- The loop of allocate_days_to_cities over selected_cities[:-1]
(algorithms/consensus.py lines 75-79): per city allocate
max(1, round(weight / total_weight * available_days)) and accumulate the
association list together with allocated_total. -/
def allocInit (db : CityDb) (totalTypical available : ℚ) :
    List String → List (String × ℤ) × ℤ
  | [] => ([], 0)
  | city :: rest =>
    let d := max 1 (pyRound (typicalDaysOf db city / totalTypical * available))
    let acc := allocInit db totalTypical available rest
    ((city, d) :: acc.1, d + acc.2)

/-- allocate_days_to_cities (algorithms/consensus.py lines 55-82): reserve a
half travel day per transition; if fewer than 1 day remains give each city a
flat single day; otherwise allocate the remaining days proportionally to the
typical-days weights, the last city receiving max(1, int(available -
allocated)).  The Python dict is an association list in insertion order. -/
def allocate_days_to_cities (db : CityDb) (selected : List String)
    (totalDays : ℤ) : List (String × ℤ) :=
  let travelDays : ℚ := ((selected.length : ℚ) - 1) * (1/2)
  let available : ℚ := (totalDays : ℚ) - travelDays
  if available < 1 then selected.map (fun c => (c, 1))
  else
    let totalTypical := (selected.map (typicalDaysOf db)).sum
    let acc := allocInit db totalTypical available selected.dropLast
    match selected.getLast? with
    | none => acc.1
    | some lastCity =>
        acc.1 ++ [(lastCity, max 1 (pyTrunc (available - (acc.2 : ℚ))))]

/-- Exception classes relevant to utils/data_handler.py. -/
inductive PyExc where
  | fileNotFound
  | fileExists
  | jsonDecode
  deriving DecidableEq

/-- State of the regions.json file as seen by load_regions. -/
inductive RegionsFile where
  | absent
  | invalidJson
  | valid (doc : List (String × List (String × CityData)))

/-- The body of the try block of load_regions: opening an absent file raises
FileNotFoundError, an unparsable file raises json.JSONDecodeError. -/
def openAndParseRegions :
    RegionsFile → Except PyExc (List (String × List (String × CityData)))
  | .absent => .error .fileNotFound
  | .invalidJson => .error .jsonDecode
  | .valid doc => .ok doc

/-- load_regions (utils/data_handler.py lines 13-28).  The two handler
clauses of the source catch exactly FileExistsError and JSONDecodeError and
return the empty region document; any other exception propagates. -/
def load_regions (st : RegionsFile) :
    Except PyExc (List (String × List (String × CityData))) :=
  match openAndParseRegions st with
  | .ok doc => .ok doc
  | .error e =>
    if e = .fileExists then .ok []
    else if e = .jsonDecode then .ok []
    else .error e

/-- All ways to pick one element out of a list: the picked element together
with the remaining elements, listed in index order.  This is the recursion
scheme of itertools.permutations. -/
def removals {α : Type} : List α → List (α × List α)
  | [] => []
  | x :: xs => (x, xs) :: (removals xs).map (fun p => (p.1, x :: p.2))

/-- Every enumeration of itertools.permutations, in its documented order:
for each element in index order, that element first, followed recursively by
the permutations of the remainder.  Implemented with a fuel argument equal to
the list length so that the recursion is structural. -/
def permsAux {α : Type} : ℕ → List α → List (List α)
  | _, [] => [[]]
  | 0, _ :: _ => []
  | n + 1, x :: xs =>
    (removals (x :: xs)).flatMap
      (fun p => (permsAux n p.2).map (fun q => p.1 :: q))

/-- itertools.permutations(cities), as a list of lists in enumeration
order. -/
def permutationsPy {α : Type} (l : List α) : List (List α) :=
  permsAux l.length l

/-- calculate_route_distance (algorithms/optimizer.py lines 44-69): the sum
of consecutive pairwise distances along a route.  The haversine kernel is
abstracted into the pairwise distance function d, read off the location
entries of the database. -/
def calculate_route_distance (d : String → String → ℚ) : List String → ℚ
  | [] => 0
  | [_] => 0
  | c1 :: c2 :: rest => d c1 c2 + calculate_route_distance d (c2 :: rest)

/-- The permutation loop of optimize_route (algorithms/optimizer.py lines
105-112): keep the current best route, replacing it only on a strictly
smaller total distance, so the first optimum in enumeration order wins. -/
def bestRouteFold (d : String → String → ℚ) :
    List (List String) → List String × ℚ → List String × ℚ
  | [], best => best
  | r :: rs, best =>
    bestRouteFold d rs
      (if calculate_route_distance d r < best.2
       then (r, calculate_route_distance d r) else best)

/-- The consecutive pairs of a route, in order. -/
def consecutivePairs (l : List String) : List (String × String) := l.zip l.tail

/-- The distance-matrix dict of optimize_route: each consecutive pair of the
winning route keyed by "CityA-CityB" with the distance rounded to one
decimal. -/
def distanceMatrix (d : String → String → ℚ) (route : List String) :
    List (String × ℚ) :=
  (consecutivePairs route).map
    (fun p => (p.1 ++ "-" ++ p.2, pyRound1 (d p.1 p.2)))

/-- optimize_route (algorithms/optimizer.py lines 71-128).  Zero or one city
is returned as-is with distance 0; exactly two cities are returned as-is with
their single pairwise distance; three or more cities run the brute-force
permutation search.  The initial best distance of infinity means the first
enumerated permutation always replaces it, which is the same as starting the
fold from the first permutation. -/
def optimize_route (d : String → String → ℚ) (cities : List String) :
    List String × ℚ × List (String × ℚ) :=
  if cities.length ≤ 1 then (cities, 0, [])
  else if cities.length = 2 then
    let dist := calculate_route_distance d cities
    (cities, pyRound1 dist, distanceMatrix d cities)
  else
    match permutationsPy cities with
    | [] => (cities, 0, [])
    | r :: rs =>
      let best := bestRouteFold d rs (r, calculate_route_distance d r)
      (best.1, pyRound1 best.2, distanceMatrix d best.1)

/-- estimate_travel_time (algorithms/optimizer.py lines 130-156). -/
def estimate_travel_time (km : ℚ) : ℚ :=
  if 500 < km then 2
  else if 200 < km then pyRound1 (km / 80)
  else pyRound1 (km / 60)

/-- get_recommended_transport (algorithms/optimizer.py lines 158-177). -/
def get_recommended_transport (km : ℚ) : String :=
  if km < 100 then "Car/Taxi"
  else if km < 300 then "Car or Train"
  else if km < 500 then "Train"
  else "Flight"

/-- Python substring containment, needle in haystack, on strings. -/
def pyInStr (needle hay : String) : Bool :=
  hay.toList.tails.any (fun t => needle.toList.isPrefixOf t)

/-- One inter-city leg of the travel plan built by create_travel_plan. -/
structure TravelSegment where
  src : String
  dst : String
  distance_km : ℚ
  travel_time_hours : ℚ
  transport : String
  cost_estimate : ℤ
  deriving DecidableEq

/-- The body of the loop of create_travel_plan (algorithms/optimizer.py
lines 200-229) for one consecutive pair: the cost is 4000 when the string
Flight occurs in the transport recommendation, 1500 when the string Train
occurs in it, and otherwise int(distance * 10). -/
def mkSegment (d : String → String → ℚ) (c1 c2 : String) : TravelSegment :=
  let dist := d c1 c2
  let transport := get_recommended_transport dist
  let cost : ℤ :=
    if pyInStr "Flight" transport then 4000
    else if pyInStr "Train" transport then 1500
    else pyTrunc (dist * 10)
  ⟨c1, c2, pyRound1 dist, estimate_travel_time dist, transport, cost⟩

/-- create_travel_plan (algorithms/optimizer.py lines 179-231): one segment
per consecutive pair of the ordered city list. -/
def create_travel_plan (d : String → String → ℚ) (citiesOrder : List String) :
    List TravelSegment :=
  (consecutivePairs citiesOrder).map (fun p => mkSegment d p.1 p.2)

/-- One participant record, the fields read by the core algorithms. -/
structure UserPref where
  region : String
  budgetMin : ℚ
  budgetMax : ℚ
  duration : ℤ
  flexible : Bool
  activities : Fin 7 → ℚ
  accommodation : String

/-- Python max(xs) for a nonempty rational list: head as seed. -/
def listMax : List ℚ → ℚ
  | [] => 0
  | x :: xs => xs.foldl max x

/-- Python min(xs) for a nonempty rational list: head as seed. -/
def listMin : List ℚ → ℚ
  | [] => 0
  | x :: xs => xs.foldl min x

/-- Python max(iterable, key=k) starting from a first element: the current
best is replaced only when the key is strictly larger, so the first maximal
element of the iterable wins. -/
def pyMaxBy (k : String → ℕ) : String → List String → String
  | x, [] => x
  | x, y :: ys => pyMaxBy k (if k x < k y then y else x) ys

/-- max(set(accommodation_prefs), key=accommodation_prefs.count) from
algorithms/scoring.py line 96 and algorithms/consensus.py line 290.  The
iteration order of the Python set is not specified (string hashing is
randomized per process), so it is passed in explicitly as setOrder, a listing
of the distinct preferences. -/
def mostCommonAccommodation (setOrder : List String) (prefs : List String) :
    String :=
  match setOrder with
  | [] => ""
  | x :: xs => pyMaxBy (fun t => prefs.count t) x xs

/-- calculate_budget_fit (algorithms/scoring.py lines 74-115). -/
def calculate_budget_fit (setOrder : List String) (users : List UserPref)
    (cd : CityData) : ℚ :=
  let groupMin := listMax (users.map (fun u => u.budgetMin))
  let groupMax := listMin (users.map (fun u => u.budgetMax))
  let tier := mostCommonAccommodation setOrder (users.map (fun u => u.accommodation))
  let cityDailyCost := (cd.avgDailyCost tier).getD cd.midRangeCost
  let cityTotalCost := cityDailyCost * cd.typicalDays.getD 2
  if groupMin ≤ cityTotalCost ∧ cityTotalCost ≤ groupMax then 1
  else if cityTotalCost < groupMin then 19/20
  else if cityTotalCost ≤ groupMax * (6/5) then 4/5
  else if cityTotalCost ≤ groupMax * (3/2) then 3/5
  else 2/5

/-- calculate_group_city_score (algorithms/scoring.py lines 39-72): the mean
activity similarity across users times the budget-fit multiplier.  The
cosine-similarity kernel is abstracted into the parameter sim. -/
def calculate_group_city_score (sim : (Fin 7 → ℚ) → (Fin 7 → ℚ) → ℚ)
    (setOrder : List String) (users : List UserPref) (cd : CityData) : ℚ :=
  let sims := users.map (fun u => sim u.activities cd.activities)
  sims.sum / sims.length * calculate_budget_fit setOrder users cd

/-- One pass of scoring: every city of the region dict, in dict order,
paired with its group score. -/
def scoreCities (sim : (Fin 7 → ℚ) → (Fin 7 → ℚ) → ℚ)
    (setOrder : List String) (users : List UserPref)
    (cities : List (String × CityData)) : List (String × ℚ) :=
  cities.map (fun p => (p.1, calculate_group_city_score sim setOrder users p.2))

/-- Stable insert for a descending sort by score: the new element passes
elements with strictly larger score and stops in front of the first element
whose score is not larger, so earlier elements win ties. -/
def insertDesc (x : String × ℚ) : List (String × ℚ) → List (String × ℚ)
  | [] => [x]
  | y :: ys => if x.2 < y.2 then y :: insertDesc x ys else x :: y :: ys

/-- Stable descending sort by score.  Python list.sort with
key=score and reverse=True is stable; a stable sort by a total key is
extensionally unique, so this insertion sort computes the same list. -/
def sortDesc : List (String × ℚ) → List (String × ℚ)
  | [] => []
  | x :: xs => insertDesc x (sortDesc xs)

/-- rank_cities_for_group (algorithms/scoring.py lines 197-214): score every
city of the dict and sort descending by score, stable. -/
def rank_cities_for_group (sim : (Fin 7 → ℚ) → (Fin 7 → ℚ) → ℚ)
    (setOrder : List String) (users : List UserPref)
    (cities : List (String × CityData)) : List (String × ℚ) :=
  sortDesc (scoreCities sim setOrder users cities)

/-- Stable ascending insert for integer lists. -/
def insertAscZ (x : ℤ) : List ℤ → List ℤ
  | [] => [x]
  | y :: ys => if y ≤ x then y :: insertAscZ x ys else x :: y :: ys

/-- Ascending sort of an integer list (np.median sorts its input). -/
def sortAscZ : List ℤ → List ℤ
  | [] => []
  | x :: xs => insertAscZ x (sortAscZ xs)

/-- np.median of an integer list: middle element of the sorted list for odd
length, mean of the two middle elements for even length. -/
def npMedian (l : List ℤ) : ℚ :=
  let s := sortAscZ l
  let n := l.length
  if n % 2 = 1 then ((s.getD (n / 2) 0 : ℤ) : ℚ)
  else (((s.getD (n / 2 - 1) 0 : ℤ) : ℚ) + ((s.getD (n / 2) 0 : ℤ) : ℚ)) / 2

/-- Steps 4 and 5 of generate_itinerary_options (algorithms/consensus.py
lines 102-113): avg_duration = int(np.median(durations)), the tier
thresholds at 4 and 7 on that integer, capped at the number of ranked
cities. -/
def targetNumCities (durations : List ℤ) (numRanked : ℕ) : ℕ :=
  let avg := pyTrunc (npMedian durations)
  let tier : ℕ := if avg ≤ 4 then 2 else if avg ≤ 7 then 3 else 4
  min tier numRanked

/-- Mid-range daily cost lookup of select_budget_friendly_cities:
cities_database.get(city, dict()).get(avg_daily_cost, dict()).get(mid-range,
5000). -/
def budgetCostOf (db : CityDb) (city : String) : ℚ :=
  match db city with
  | none => 5000
  | some cd => (cd.avgDailyCost "mid-range").getD 5000

/-- Stable ascending insert for (name, score, cost) triples keyed by the
cost component. -/
def insertAscCost (x : String × ℚ × ℚ) :
    List (String × ℚ × ℚ) → List (String × ℚ × ℚ)
  | [] => [x]
  | y :: ys => if y.2.2 ≤ x.2.2 then y :: insertAscCost x ys else x :: y :: ys

/-- Stable ascending sort by cost (list.sort with key=cost). -/
def sortAscCost : List (String × ℚ × ℚ) → List (String × ℚ × ℚ)
  | [] => []
  | x :: xs => insertAscCost x (sortAscCost xs)

/-- The padding loops of select_budget_friendly_cities (lines 249-254) and
select_adventurous_mix (lines 275-280): walk the ranked list, append cities
not already selected, and stop as soon as the requested count is reached
(the length test follows the append). -/
def padLoop (num : ℕ) : List (String × ℚ) → List String → List String
  | [], sel => sel
  | (c, _) :: rest, sel =>
    if c ∈ sel then padLoop num rest sel
    else
      let sel2 := sel ++ [c]
      if num ≤ sel2.length then sel2 else padLoop num rest sel2

/-- select_budget_friendly_cities (algorithms/consensus.py lines 232-255). -/
def select_budget_friendly_cities (db : CityDb)
    (ranked : List (String × ℚ)) (num : ℕ) : List String :=
  let cityCosts := (ranked.filter (fun p => 60 < p.2)).map
    (fun p => (p.1, p.2, budgetCostOf db p.1 * typicalDaysOf db p.1))
  let selected := ((sortAscCost cityCosts).take num).map (fun t => t.1)
  if selected.length < num then padLoop num ranked selected else selected

/-- The fill loop of select_adventurous_mix (lines 270-273): length test at
the top of each iteration, then append. -/
def fillLoop (num : ℕ) : List (String × ℚ) → List String → List String
  | [], sel => sel
  | (c, _) :: rest, sel =>
    if num ≤ sel.length then sel else fillLoop num rest (sel ++ [c])

/-- select_adventurous_mix (algorithms/consensus.py lines 258-282): the top
ranked city, then cities from the shuffled rank-band ranked[3:8], then
padding from ranked[1:].  np.random.shuffle is injected as the shuffle
parameter. -/
def select_adventurous_mix
    (shuffle : List (String × ℚ) → List (String × ℚ))
    (ranked : List (String × ℚ)) (num : ℕ) : List String :=
  let selected := match ranked with | [] => [] | r :: _ => [r.1]
  let midRanked := shuffle ((ranked.drop 3).take 5)
  let selected2 := fillLoop num midRanked selected
  if selected2.length < num then padLoop num (ranked.drop 1) selected2
  else selected2

/-- The detailed_itinerary field attached after the numeric build: absent
before the narrative step, generated text on success, an error-marker dict on
failure, a note dict on the two options that get no narrative. -/
inductive DetailedItinerary where
  | missing
  | generated (text : String)
  | failed (message : String)
  | note (message : String)
  deriving DecidableEq

/-- One itinerary option as assembled in the results dict of
generate_itinerary_options (algorithms/consensus.py lines 154-197). -/
structure ItineraryOption where
  option_id : ℕ
  name : String
  description : String
  cities : List String
  day_allocation : List (String × ℤ)
  total_days : ℤ
  total_distance_km : ℚ
  travel_plan : List TravelSegment
  estimated_cost_per_person : ℤ
  group_score : ℚ
  individual_scores : List ℚ
  votes : ℕ
  detailed_itinerary : DetailedItinerary
  deriving DecidableEq

/-- The full results record: region, compatibility and the three options. -/
structure ConsensusResults where
  selected_region : String
  group_compatibility : ℚ
  options : ItineraryOption × ItineraryOption × ItineraryOption
  deriving DecidableEq

/-- The narrative step of generate_itinerary_options (algorithms/consensus.py
lines 200-227): only option 0 calls the external generator inside
try/except, a failure storing an error dict instead; options 1 and 2 then
unconditionally receive a note dict.  The external generator is the
fallible parameter gen. -/
def attachNarratives (gen : ItineraryOption → Except String String)
    (results : ConsensusResults) : ConsensusResults :=
  let o1 := results.options.1
  let o1n :=
    match gen o1 with
    | .ok text => { o1 with detailed_itinerary := .generated text }
    | .error e =>
      { o1 with detailed_itinerary :=
          .failed ("Could not generate detailed itinerary: " ++ e) }
  let noteText := "Detailed itinerary generated for Option 1 only."
  let o2n := { results.options.2.1 with
               detailed_itinerary := DetailedItinerary.note noteText }
  let o3n := { results.options.2.2 with
               detailed_itinerary := DetailedItinerary.note noteText }
  { results with options := (o1n, o2n, o3n) }

/-- Dot product of two 7-dimensional activity vectors. -/
def dotQ (a b : Fin 7 → ℚ) : ℚ := ∑ i, a i * b i

/-- sklearn cosine_similarity for one pair of 7-dimensional vectors
(algorithms/scoring.py line 34): each vector is L2-normalized, a zero norm
being replaced by 1 before dividing (sklearn.preprocessing.normalize), then
the normalized vectors are dotted.  Modelled over the reals: the zero-norm
test sqrt(dot v v) = 0 is equivalent to dot v v = 0, which keeps the guard
decidable. -/
noncomputable def cosineSimilarity (a b : Fin 7 → ℚ) : ℝ :=
  let na : ℝ := if dotQ a a = 0 then 1 else Real.sqrt ((dotQ a a : ℚ) : ℝ)
  let nb : ℝ := if dotQ b b = 0 then 1 else Real.sqrt ((dotQ b b : ℚ) : ℝ)
  ((dotQ a b : ℚ) : ℝ) / (na * nb)

/-- calculate_activity_similarity (algorithms/scoring.py lines 8-37): the
cosine similarity scaled to 0-100. -/
noncomputable def calculate_activity_similarity (a b : Fin 7 → ℚ) : ℝ :=
  cosineSimilarity a b * 100

/-- A demonstration database in which every city has typical-days weight 2
and mid-range daily cost 3000. -/
def demoDb : CityDb := fun _ => some ⟨fun _ => 0, fun _ => none, 3000, some 2⟩

/-- Segment cost exactly as the C6 claim words it: 4000 for the flight band
(at least 500 km), 1500 for the train band [300, 500), and distance times 10
rounded to nearest integer for everything below 300 km. -/
def claimedSegmentCost (km : ℚ) : ℤ :=
  if 500 ≤ km then 4000
  else if 300 ≤ km then 1500
  else pyRound (km * 10)

/-- A concrete distance table: 200 km out of city A, 55.56 km otherwise. -/
def cexDistanceC6 : String → String → ℚ :=
  fun c _ => if c = "A" then 200 else 1389/25

/-- City-count tiers exactly as the C7 claim words them: the thresholds 4
and 7 applied to the median itself, capped at the ranked-city count. -/
def claimedNumCities (durations : List ℤ) (numRanked : ℕ) : ℕ :=
  min (if npMedian durations ≤ 4 then 2
       else if npMedian durations ≤ 7 then 3 else 4) numRanked

/-- A concrete itinerary option with all numeric fields populated and no
narrative yet. -/
def demoOption : ItineraryOption :=
  ⟨1, "Optimal Match", "Best overall match", ["Jaipur", "Udaipur"],
   [("Jaipur", 2), ("Udaipur", 2)], 5, 240, [], 25000, 80, [80], 0, .missing⟩

/-- A concrete pre-narrative results record with three options. -/
def demoResults : ConsensusResults :=
  ⟨"Rajasthan", 85,
   (demoOption,
    { demoOption with option_id := 2, name := "Budget-Friendly" },
    { demoOption with option_id := 3, name := "Adventurous Mix" })⟩

/-- A narrative generator that always fails. -/
def failGen : ItineraryOption → Except String String :=
  fun _ => .error "quota exceeded"

/-- A constant similarity kernel, standing in for the cosine kernel. -/
def constSim : (Fin 7 → ℚ) → (Fin 7 → ℚ) → ℚ := fun _ _ => 100

/-- A participant preferring budget accommodation, budget range
[2000, 3000]. -/
def cexUserBudget : UserPref :=
  ⟨"Rajasthan", 2000, 3000, 5, true, fun _ => 3, "budget"⟩

/-- A participant preferring luxury accommodation, same budget range. -/
def cexUserLuxury : UserPref :=
  ⟨"Rajasthan", 2000, 3000, 5, true, fun _ => 3, "luxury"⟩

/-- A city whose budget-tier and luxury-tier costs fall in different
budget-fit bands for the group range [2000, 3000]: totals 1000 (below the
range, multiplier 0.95) against 10000 (beyond 1.5 times the maximum,
multiplier 0.4). -/
def cexCityX : CityData :=
  ⟨fun _ => 3,
   fun t => if t = "budget" then some 500
            else if t = "luxury" then some 5000 else none,
   2000, some 2⟩

/-- The accommodation tally has a unique strict winner: one tier is
preferred strictly more often than every other tier that occurs. -/
def UniqueDominant (users : List UserPref) : Prop :=
  ∃ m ∈ users.map (fun u => u.accommodation),
    ∀ x ∈ users.map (fun u => u.accommodation), x ≠ m →
      (users.map (fun u => u.accommodation)).count x <
        (users.map (fun u => u.accommodation)).count m

/-- Every intermediate allocation of the proportional loop is at least 1. -/
theorem allocInit_mem_ge_one (db : CityDb) (t a : ℚ) :
    ∀ l : List String, ∀ p ∈ (allocInit db t a l).1, 1 ≤ p.2 := by
  intro l
  induction l with
  | nil => intro p hp; simp [allocInit] at hp
  | cons c rest ih =>
    intro p hp
    simp only [allocInit, List.mem_cons] at hp
    rcases hp with h | h
    · subst h; exact le_max_left _ _
    · exact ih p h

/-- allocated_total is the sum of the intermediate allocations. -/
theorem allocInit_snd_sum (db : CityDb) (t a : ℚ) :
    ∀ l : List String,
      ((allocInit db t a l).1.map Prod.snd).sum = (allocInit db t a l).2 := by
  intro l
  induction l with
  | nil => simp [allocInit]
  | cons c rest ih => simp [allocInit, ih]

/-- C4: when the regions file is absent, load_regions propagates
FileNotFoundError, because the handler of the source catches the sibling
class FileExistsError instead; a parse failure does degrade to the empty
region set. -/
theorem load_regions_absent_raises :
    load_regions .absent = .error .fileNotFound ∧
    load_regions .invalidJson = .ok [] :=
  ⟨rfl, rfl⟩

/-- C1 counterexample: two cities of typical weight 2 and a total of 5 days;
the half travel day is reserved and never redistributed, so the allocation
sums to 4, not to the input total of 5, even though the list is non-empty,
the total is positive and every city receives at least one day. -/
theorem allocate_days_sum_counterexample :
    (["A", "B"] : List String) ≠ [] ∧ (0 : ℤ) < 5 ∧
    ((allocate_days_to_cities demoDb ["A", "B"] 5).map Prod.snd).sum = 4 ∧
    (4 : ℤ) ≠ 5 := by
  refine ⟨by decide, by decide, ?_, by decide⟩
  norm_num [allocate_days_to_cities, allocInit, typicalDaysOf, demoDb,
    pyRound, pyTrunc, List.getLast?]

/-- C1 amended: every city always receives at least 1 day, and in the
proportional path (at least 1 day available after reserving half a travel
day per transition, and the rounded intermediate allocations leaving at
least one day for the final city) the values sum to the floor of the
available days, the final city absorbing the remainder relative to the
available days rather than to total_days. -/
theorem allocate_days_amended (db : CityDb) (selected : List String)
    (totalDays : ℤ) (hne : selected ≠ []) (_hnd : selected.Nodup) :
    (∀ p ∈ allocate_days_to_cities db selected totalDays, 1 ≤ p.2) ∧
    (1 ≤ (totalDays : ℚ) - ((selected.length : ℚ) - 1) * (1/2) →
      ((allocInit db ((selected.map (typicalDaysOf db)).sum)
          ((totalDays : ℚ) - ((selected.length : ℚ) - 1) * (1/2))
          selected.dropLast).2 : ℚ) + 1 ≤
        (totalDays : ℚ) - ((selected.length : ℚ) - 1) * (1/2) →
      ((allocate_days_to_cities db selected totalDays).map Prod.snd).sum =
        ⌊(totalDays : ℚ) - ((selected.length : ℚ) - 1) * (1/2)⌋) := by
  constructor
  · intro p hp
    unfold allocate_days_to_cities at hp
    by_cases hlt : (totalDays : ℚ) - ((selected.length : ℚ) - 1) * (1/2) < 1
    · rw [if_pos hlt] at hp
      rcases List.mem_map.mp hp with ⟨c, _, hc⟩
      rw [← hc]
    · rw [if_neg hlt] at hp
      rcases hl : selected.getLast? with _ | lastCity
      · rw [hl] at hp
        exact allocInit_mem_ge_one db _ _ _ p hp
      · rw [hl] at hp
        rcases List.mem_append.mp hp with h | h
        · exact allocInit_mem_ge_one db _ _ _ p h
        · rcases List.mem_singleton.mp h with rfl
          exact le_max_left _ _
  · intro h1 h2
    have hnlt : ¬ (totalDays : ℚ) - ((selected.length : ℚ) - 1) * (1/2) < 1 :=
      not_lt.mpr h1
    rcases hl : selected.getLast? with _ | lastCity
    · exact absurd (List.getLast?_eq_none_iff.mp hl) hne
    · unfold allocate_days_to_cities
      rw [if_neg hnlt, hl, List.map_append, List.sum_append,
        allocInit_snd_sum]
      have hfloor :
          pyTrunc ((totalDays : ℚ) - ((selected.length : ℚ) - 1) * (1/2) -
            ((allocInit db ((selected.map (typicalDaysOf db)).sum)
              ((totalDays : ℚ) - ((selected.length : ℚ) - 1) * (1/2))
              selected.dropLast).2 : ℚ)) =
          ⌊(totalDays : ℚ) - ((selected.length : ℚ) - 1) * (1/2)⌋ -
            (allocInit db ((selected.map (typicalDaysOf db)).sum)
              ((totalDays : ℚ) - ((selected.length : ℚ) - 1) * (1/2))
              selected.dropLast).2 := by
        rw [pyTrunc, if_pos (by linarith), Int.floor_sub_int]
      have hone :
          (1 : ℤ) ≤ ⌊(totalDays : ℚ) - ((selected.length : ℚ) - 1) * (1/2)⌋ -
            (allocInit db ((selected.map (typicalDaysOf db)).sum)
              ((totalDays : ℚ) - ((selected.length : ℚ) - 1) * (1/2))
              selected.dropLast).2 := by
        have : (1 : ℤ) ≤ ⌊(totalDays : ℚ) - ((selected.length : ℚ) - 1) * (1/2) -
            ((allocInit db ((selected.map (typicalDaysOf db)).sum)
              ((totalDays : ℚ) - ((selected.length : ℚ) - 1) * (1/2))
              selected.dropLast).2 : ℚ)⌋ := by
          rw [Int.le_floor]
          push_cast
          linarith
        rwa [Int.floor_sub_int] at this
      simp only [List.map_cons, List.map_nil, List.sum_cons, List.sum_nil,
        add_zero]
      rw [hfloor, max_eq_right hone]
      ring

/-- Witness for the amended C1 theorem at the concrete input of two cities
and five total days: the hypotheses hold and the allocation sums to the
floor of the available days. -/
theorem allocate_days_amended_witness :
    (["A", "B"] : List String) ≠ [] ∧ (["A", "B"] : List String).Nodup ∧
    ((allocate_days_to_cities demoDb ["A", "B"] 5).map Prod.snd).sum =
      ⌊((5 : ℤ) : ℚ) - (((["A", "B"] : List String).length : ℚ) - 1) * (1/2)⌋ := by
  refine ⟨by decide, by decide, ?_⟩
  exact (allocate_days_amended demoDb ["A", "B"] 5 (by decide) (by decide)).2
    (by norm_num)
    (by norm_num [allocInit, typicalDaysOf, demoDb, pyRound, List.dropLast])

/-- Removing one element shortens the list by one. -/
theorem snd_length_of_mem_removals {α : Type} :
    ∀ {l : List α} {p : α × List α}, p ∈ removals l → p.2.length + 1 = l.length := by
  intro l
  induction l with
  | nil => intro p hp; simp [removals] at hp
  | cons x xs ih =>
    intro p hp
    simp only [removals, List.mem_cons, List.mem_map] at hp
    rcases hp with rfl | ⟨q, hq, rfl⟩
    · rfl
    · simpa using ih hq

/-- A removal entry, reassembled, is a permutation of the original list. -/
theorem cons_perm_of_mem_removals {α : Type} :
    ∀ {l : List α} {p : α × List α}, p ∈ removals l → (p.1 :: p.2).Perm l := by
  intro l
  induction l with
  | nil => intro p hp; simp [removals] at hp
  | cons x xs ih =>
    intro p hp
    simp only [removals, List.mem_cons, List.mem_map] at hp
    rcases hp with rfl | ⟨q, hq, rfl⟩
    · exact List.Perm.refl _
    · exact (List.Perm.swap x q.1 q.2).trans ((ih hq).cons x)

/-- Every member has a removal entry: its first occurrence paired with the
list with that occurrence erased. -/
theorem mem_removals_of_mem {α : Type} [DecidableEq α] :
    ∀ {l : List α} {y : α}, y ∈ l → (y, l.erase y) ∈ removals l := by
  intro l
  induction l with
  | nil => intro y hy; simp at hy
  | cons x xs ih =>
    intro y hy
    by_cases hxy : x = y
    · subst hxy
      simp [removals, List.erase_cons_head]
    · have hmem : y ∈ xs := by
        rcases List.mem_cons.mp hy with rfl | h
        · exact absurd rfl hxy
        · exact h
      have herase : (x :: xs).erase y = x :: xs.erase y := by
        rw [List.erase_cons_tail]
        simp [hxy]
      rw [herase]
      simp only [removals, List.mem_cons, List.mem_map]
      exact Or.inr ⟨(y, xs.erase y), ih hmem, rfl⟩

/-- Soundness of the permutation enumeration: with enough fuel, every
enumerated list is a permutation of the input. -/
theorem perm_of_mem_permsAux {α : Type} :
    ∀ (n : ℕ) (l p : List α), l.length ≤ n → p ∈ permsAux n l → p.Perm l := by
  intro n
  induction n with
  | zero =>
    intro l p hl hp
    rcases l with _ | ⟨x, xs⟩
    · simp only [permsAux, List.mem_singleton] at hp
      simp [hp]
    · simp at hl
  | succ n ih =>
    intro l p hl hp
    rcases l with _ | ⟨x, xs⟩
    · simp only [permsAux, List.mem_singleton] at hp
      simp [hp]
    · simp only [permsAux, List.mem_flatMap, List.mem_map] at hp
      obtain ⟨q, hq, p2, hp2, rfl⟩ := hp
      have hlen : q.2.length + 1 = xs.length + 1 := snd_length_of_mem_removals hq
      have hq2 : q.2.length ≤ n := by
        simp only [List.length_cons] at hl
        omega
      exact ((ih q.2 p2 hq2 hp2).cons q.1).trans (cons_perm_of_mem_removals hq)

/-- Completeness of the permutation enumeration: with enough fuel, every
permutation of the input is enumerated. -/
theorem mem_permsAux_of_perm {α : Type} [DecidableEq α] :
    ∀ (n : ℕ) (l p : List α), l.length ≤ n → p.Perm l → p ∈ permsAux n l := by
  intro n
  induction n with
  | zero =>
    intro l p hl hperm
    rcases l with _ | ⟨x, xs⟩
    · simp [permsAux, List.Perm.eq_nil hperm]
    · simp at hl
  | succ n ih =>
    intro l p hl hperm
    rcases l with _ | ⟨x, xs⟩
    · simp [permsAux, List.Perm.eq_nil hperm]
    · rcases p with _ | ⟨y, p'⟩
      · exact absurd hperm.symm (by simp)
      · have hy : y ∈ x :: xs := hperm.mem_iff.mp (List.mem_cons_self y p')
        have hp' : p'.Perm ((x :: xs).erase y) :=
          (List.cons_perm_iff_perm_erase.mp hperm).2
        have herase : ((x :: xs).erase y).length ≤ n := by
          rw [List.length_erase_of_mem hy]
          simpa using Nat.le_of_succ_le_succ hl
        simp only [permsAux, List.mem_flatMap, List.mem_map]
        exact ⟨(y, (x :: xs).erase y), mem_removals_of_mem hy,
          p', ih _ p' herase hp', rfl⟩

/-- Membership in the itertools permutation list is exactly being a
permutation of the input. -/
theorem mem_permutationsPy_iff {α : Type} [DecidableEq α]
    {l p : List α} : p ∈ permutationsPy l ↔ p.Perm l :=
  ⟨perm_of_mem_permsAux l.length l p le_rfl,
   mem_permsAux_of_perm l.length l p le_rfl⟩

/-- The winning route of the permutation fold is the seed or one of the
candidates. -/
theorem bestRouteFold_fst_mem (d : String → String → ℚ) :
    ∀ (rs : List (List String)) (best : List String × ℚ),
      (bestRouteFold d rs best).1 = best.1 ∨ (bestRouteFold d rs best).1 ∈ rs := by
  intro rs
  induction rs with
  | nil => intro best; exact Or.inl rfl
  | cons r rs ih =>
    intro best
    by_cases hr : calculate_route_distance d r < best.2
    · have hstep : bestRouteFold d (r :: rs) best =
          bestRouteFold d rs (r, calculate_route_distance d r) := by
        simp only [bestRouteFold, if_pos hr]
      rw [hstep]
      rcases ih (r, calculate_route_distance d r) with h | h
      · exact Or.inr (List.mem_cons.mpr (Or.inl h))
      · exact Or.inr (List.mem_cons.mpr (Or.inr h))
    · have hstep : bestRouteFold d (r :: rs) best = bestRouteFold d rs best := by
        simp only [bestRouteFold, if_neg hr]
      rw [hstep]
      rcases ih best with h | h
      · exact Or.inl h
      · exact Or.inr (List.mem_cons.mpr (Or.inr h))

/-- Full characterisation of the permutation fold: the result carries its
own route distance, never exceeds the seed, is minimal among the candidates,
and is either the untouched seed or sits at a position of the candidate list
all of whose predecessors have strictly larger distance. -/
theorem bestRouteFold_spec (d : String → String → ℚ) :
    ∀ (rs : List (List String)) (best : List String × ℚ),
      best.2 = calculate_route_distance d best.1 →
      (bestRouteFold d rs best).2 =
        calculate_route_distance d (bestRouteFold d rs best).1 ∧
      (bestRouteFold d rs best).2 ≤ best.2 ∧
      (∀ p ∈ rs, (bestRouteFold d rs best).2 ≤ calculate_route_distance d p) ∧
      (bestRouteFold d rs best = best ∨
        ∃ l₁ l₂, rs = l₁ ++ (bestRouteFold d rs best).1 :: l₂ ∧
          (bestRouteFold d rs best).2 < best.2 ∧
          (∀ p ∈ l₁,
            (bestRouteFold d rs best).2 < calculate_route_distance d p) ∧
          (∀ p ∈ l₂,
            (bestRouteFold d rs best).2 ≤ calculate_route_distance d p)) := by
  intro rs
  induction rs with
  | nil =>
    intro best hb
    exact ⟨hb, le_rfl, by simp, Or.inl rfl⟩
  | cons r rs ih =>
    intro best hb
    by_cases hr : calculate_route_distance d r < best.2
    · have hstep : bestRouteFold d (r :: rs) best =
          bestRouteFold d rs (r, calculate_route_distance d r) := by
        simp only [bestRouteFold, if_pos hr]
      obtain ⟨h1, h2, h3, h4⟩ := ih (r, calculate_route_distance d r) rfl
      rw [hstep]
      set res := bestRouteFold d rs (r, calculate_route_distance d r) with hres
      refine ⟨h1, le_of_lt (lt_of_le_of_lt h2 hr), ?_, ?_⟩
      · intro p hp
        rcases List.mem_cons.mp hp with rfl | hp
        · exact h2
        · exact h3 p hp
      · rcases h4 with heq | ⟨l₁, l₂, hsplit, hlt, hstrict, hle⟩
        · refine Or.inr ⟨[], rs, ?_, ?_, by simp, h3⟩
          · rw [heq]; rfl
          · rw [heq]; exact hr
        · refine Or.inr ⟨r :: l₁, l₂, ?_, lt_trans hlt hr, ?_, hle⟩
          · rw [hsplit, List.cons_append]
          · intro p hp
            rcases List.mem_cons.mp hp with rfl | hp
            · exact hlt
            · exact hstrict p hp
    · have hstep : bestRouteFold d (r :: rs) best = bestRouteFold d rs best := by
        simp only [bestRouteFold, if_neg hr]
      obtain ⟨h1, h2, h3, h4⟩ := ih best hb
      rw [hstep]
      set res := bestRouteFold d rs best with hres
      refine ⟨h1, h2, ?_, ?_⟩
      · intro p hp
        rcases List.mem_cons.mp hp with rfl | hp
        · exact le_trans h2 (not_lt.mp hr)
        · exact h3 p hp
      · rcases h4 with heq | ⟨l₁, l₂, hsplit, hlt, hstrict, hle⟩
        · exact Or.inl heq
        · refine Or.inr ⟨r :: l₁, l₂, ?_, hlt, ?_, hle⟩
          · rw [hsplit, List.cons_append]
          · intro p hp
            rcases List.mem_cons.mp hp with rfl | hp
            · exact lt_of_lt_of_le hlt (not_lt.mp hr)
            · exact hstrict p hp

/-- C2: for three or more cities the optimizer returns a route whose total
path distance is minimal among every permutation of the city set, and the
returned route is the first optimum in the itertools enumeration order:
every permutation enumerated before it has strictly larger total distance.
The pairwise haversine distance is abstracted as d, so the statement holds
for the distances the database induces. -/
theorem optimize_route_global_min (d : String → String → ℚ)
    (cities : List String) (h3 : 3 ≤ cities.length) :
    (∀ p : List String, p.Perm cities →
      calculate_route_distance d (optimize_route d cities).1 ≤
        calculate_route_distance d p) ∧
    ∃ l₁ l₂, permutationsPy cities = l₁ ++ (optimize_route d cities).1 :: l₂ ∧
      ∀ p ∈ l₁, calculate_route_distance d (optimize_route d cities).1 <
        calculate_route_distance d p := by
  have hself : cities ∈ permutationsPy cities :=
    mem_permutationsPy_iff.mpr (List.Perm.refl _)
  rcases hp : permutationsPy cities with _ | ⟨r, rs⟩
  · rw [hp] at hself
    cases hself
  · have hne1 : ¬ cities.length ≤ 1 := by omega
    have hne2 : ¬ cities.length = 2 := by omega
    set res := bestRouteFold d rs (r, calculate_route_distance d r) with hresdef
    have hfst : (optimize_route d cities).1 = res.1 := by
      unfold optimize_route
      rw [if_neg hne1, if_neg hne2, hp]
    obtain ⟨h1, h2, h3', h4⟩ :=
      bestRouteFold_spec d rs (r, calculate_route_distance d r) rfl
    rw [hfst]
    simp only [← h1]
    constructor
    · intro p hperm
      have hpin : p ∈ permutationsPy cities := mem_permutationsPy_iff.mpr hperm
      rw [hp] at hpin
      rcases List.mem_cons.mp hpin with rfl | hpin
      · exact h2
      · exact h3' p hpin
    · rcases h4 with heq | ⟨l₁, l₂, hsplit, hlt, hstrict, hle⟩
      · refine ⟨[], rs, ?_, by simp⟩
        rw [hresdef, heq]
        rfl
      · refine ⟨r :: l₁, l₂, ?_, ?_⟩
        · conv_lhs => rw [hsplit]
          rfl
        · intro p hpmem
          rcases List.mem_cons.mp hpmem with rfl | hpmem
          · exact hlt
          · exact hstrict p hpmem

/-- Witness for C2 at a concrete three-city input with the constant
pairwise-distance function. -/
theorem optimize_route_global_min_witness :
    3 ≤ (["a", "b", "c"] : List String).length ∧
    ((∀ p : List String, p.Perm ["a", "b", "c"] →
        calculate_route_distance (fun _ _ => 1)
            (optimize_route (fun _ _ => 1) ["a", "b", "c"]).1 ≤
          calculate_route_distance (fun _ _ => 1) p) ∧
      ∃ l₁ l₂, permutationsPy ["a", "b", "c"] =
          l₁ ++ (optimize_route (fun _ _ => 1) ["a", "b", "c"]).1 :: l₂ ∧
        ∀ p ∈ l₁,
          calculate_route_distance (fun _ _ => 1)
              (optimize_route (fun _ _ => 1) ["a", "b", "c"]).1 <
            calculate_route_distance (fun _ _ => 1) p) :=
  ⟨by decide, optimize_route_global_min (fun _ _ => 1) ["a", "b", "c"] (by decide)⟩

/-- C10: in every branch the optimizer returns a permutation of its input
city list, none added or dropped. -/
theorem optimize_route_perm (d : String → String → ℚ) (cities : List String) :
    (optimize_route d cities).1.Perm cities := by
  by_cases h1 : cities.length ≤ 1
  · have hfst : (optimize_route d cities).1 = cities := by
      unfold optimize_route
      rw [if_pos h1]
    rw [hfst]
  · by_cases h2 : cities.length = 2
    · have hfst : (optimize_route d cities).1 = cities := by
        unfold optimize_route
        rw [if_neg h1, if_pos h2]
      rw [hfst]
    · rcases hp : permutationsPy cities with _ | ⟨r, rs⟩
      · have hfst : (optimize_route d cities).1 = cities := by
          unfold optimize_route
          rw [if_neg h1, if_neg h2, hp]
        rw [hfst]
      · have hfst : (optimize_route d cities).1 =
            (bestRouteFold d rs (r, calculate_route_distance d r)).1 := by
          unfold optimize_route
          rw [if_neg h1, if_neg h2, hp]
        rw [hfst]
        have hmem : (bestRouteFold d rs (r, calculate_route_distance d r)).1 ∈
            permutationsPy cities := by
          rw [hp]
          rcases bestRouteFold_fst_mem d rs (r, calculate_route_distance d r)
            with h | h
          · exact List.mem_cons.mpr (Or.inl h)
          · exact List.mem_cons.mpr (Or.inr h)
        exact mem_permutationsPy_iff.mp hmem

/-- The padding loops never push the selection beyond the requested count
when entered below the count. -/
theorem padLoop_length_le (num : ℕ) :
    ∀ (l : List (String × ℚ)) (sel : List String),
      sel.length < num → (padLoop num l sel).length ≤ num := by
  intro l
  induction l with
  | nil =>
    intro sel h
    simp only [padLoop]
    exact le_of_lt h
  | cons p rest ih =>
    intro sel h
    rcases p with ⟨c, s⟩
    simp only [padLoop]
    by_cases hc : c ∈ sel
    · rw [if_pos hc]
      exact ih sel h
    · rw [if_neg hc]
      by_cases hn : num ≤ (sel ++ [c]).length
      · rw [if_pos hn]
        simp only [List.length_append, List.length_cons, List.length_nil]
        omega
      · rw [if_neg hn]
        exact ih _ (lt_of_not_ge hn)

/-- The fill loop of the adventurous mix is bounded by the larger of the
starting length and the requested count. -/
theorem fillLoop_length_le (num : ℕ) :
    ∀ (l : List (String × ℚ)) (sel : List String),
      (fillLoop num l sel).length ≤ max sel.length num := by
  intro l
  induction l with
  | nil =>
    intro sel
    simp only [fillLoop]
    exact le_max_left _ _
  | cons p rest ih =>
    intro sel
    rcases p with ⟨c, s⟩
    simp only [fillLoop]
    by_cases hn : num ≤ sel.length
    · rw [if_pos hn]
      exact le_max_left _ _
    · rw [if_neg hn]
      have h1 : sel.length < num := lt_of_not_ge hn
      refine le_trans (ih (sel ++ [c])) ?_
      have hlen : (sel ++ [c]).length = sel.length + 1 := by simp
      rw [hlen, max_eq_right (Nat.succ_le_of_lt h1), max_eq_right (le_of_lt h1)]

/-- The budget selector returns at most the requested number of cities. -/
theorem select_budget_length_le (db : CityDb)
    (ranked : List (String × ℚ)) (num : ℕ) :
    (select_budget_friendly_cities db ranked num).length ≤ num := by
  simp only [select_budget_friendly_cities]
  set sel := ((sortAscCost ((ranked.filter (fun p => 60 < p.2)).map
    (fun p => (p.1, p.2, budgetCostOf db p.1 * typicalDaysOf db p.1)))).take
      num).map (fun t => t.1) with hsel
  by_cases h : sel.length < num
  · rw [if_pos h]
    exact padLoop_length_le num ranked sel h
  · rw [if_neg h]
    rw [hsel]
    simp only [List.length_map, List.length_take]
    exact Nat.min_le_left _ _

/-- The adventurous selector returns at most max 1 num cities. -/
theorem select_adventurous_length_le
    (shuffle : List (String × ℚ) → List (String × ℚ))
    (ranked : List (String × ℚ)) (num : ℕ) :
    (select_adventurous_mix shuffle ranked num).length ≤ max 1 num := by
  simp only [select_adventurous_mix]
  set sel0 := (match ranked with
    | [] => ([] : List String)
    | r :: _ => [r.1]) with hsel0
  have hsel0len : sel0.length ≤ 1 := by
    rw [hsel0]
    rcases ranked with _ | ⟨r, rest⟩ <;> simp
  set sel2 := fillLoop num (shuffle ((ranked.drop 3).take 5)) sel0 with hsel2
  have h2 : sel2.length ≤ max 1 num := by
    rw [hsel2]
    exact le_trans (fillLoop_length_le num _ sel0)
      (max_le_max hsel0len le_rfl)
  by_cases h : sel2.length < num
  · rw [if_pos h]
    exact le_trans (padLoop_length_le num (ranked.drop 1) sel2 h)
      (le_max_right _ _)
  · rw [if_neg h]
    exact h2

/-- The city-count target never exceeds 4 cities. -/
theorem targetNumCities_le_four (durations : List ℤ) (numRanked : ℕ) :
    targetNumCities durations numRanked ≤ 4 := by
  simp only [targetNumCities]
  refine le_trans (Nat.min_le_left _ _) ?_
  split_ifs <;> norm_num

/-- C3: the orchestrator calls the route optimizer only on the three
candidate city lists, and each of them has at most 4 cities, well below the
7-city bound, for every group, ranking, database and shuffle outcome: the
caller-side capping keeps oversized inputs away from the permutation
search. -/
theorem optimizer_input_capped (durations : List ℤ) (db : CityDb)
    (ranked : List (String × ℚ))
    (shuffle : List (String × ℚ) → List (String × ℚ)) :
    ((ranked.take (targetNumCities durations ranked.length)).map
        Prod.fst).length ≤ 7 ∧
    (select_budget_friendly_cities db ranked
        (targetNumCities durations ranked.length)).length ≤ 7 ∧
    (select_adventurous_mix shuffle ranked
        (targetNumCities durations ranked.length)).length ≤ 7 := by
  have hn : targetNumCities durations ranked.length ≤ 4 :=
    targetNumCities_le_four durations ranked.length
  refine ⟨?_, ?_, ?_⟩
  · simp only [List.length_map, List.length_take]
    have := Nat.min_le_left (targetNumCities durations ranked.length)
      ranked.length
    omega
  · have := select_budget_length_le db ranked
      (targetNumCities durations ranked.length)
    omega
  · have := select_adventurous_length_le shuffle ranked
      (targetNumCities durations ranked.length)
    have hmax : max 1 (targetNumCities durations ranked.length) ≤ 4 :=
      max_le (by norm_num) hn
    omega

/-- The two city names of the counterexample table differ. -/
theorem str_B_ne_A : ("B" : String) ≠ "A" := by decide

/-- The word Flight occurs in the transport string Flight. -/
theorem pyInStr_flight_flight : pyInStr "Flight" "Flight" = true := by decide

/-- The word Flight does not occur in Train. -/
theorem pyInStr_flight_train : pyInStr "Flight" "Train" = false := by decide

/-- The word Flight does not occur in Car or Train. -/
theorem pyInStr_flight_carOrTrain :
    pyInStr "Flight" "Car or Train" = false := by decide

/-- The word Flight does not occur in Car/Taxi. -/
theorem pyInStr_flight_carTaxi : pyInStr "Flight" "Car/Taxi" = false := by
  decide

/-- The word Train occurs in the transport string Train. -/
theorem pyInStr_train_train : pyInStr "Train" "Train" = true := by decide

/-- The word Train occurs as a substring of Car or Train: this is the pivot
of claim C6. -/
theorem pyInStr_train_carOrTrain :
    pyInStr "Train" "Car or Train" = true := by decide

/-- The word Train does not occur in Car/Taxi. -/
theorem pyInStr_train_carTaxi : pyInStr "Train" "Car/Taxi" = false := by
  decide

/-- C6 counterexample: on a 200 km leg the recommendation is Car or Train,
the substring test for Train matches it and the code charges the 1500 train
fare, while the claim says 10 times the distance, 2000; and on a 55.56 km
leg the code truncates 555.6 to 555 where the claim rounds to 556. -/
theorem segment_cost_counterexample :
    ((create_travel_plan cexDistanceC6 ["A", "B", "C"]).map
        (fun s => s.cost_estimate)) = [1500, 555] ∧
    claimedSegmentCost 200 = 2000 ∧
    claimedSegmentCost (1389/25) = 556 := by
  refine ⟨?_, ?_, ?_⟩
  · norm_num [create_travel_plan, consecutivePairs, mkSegment, cexDistanceC6,
      get_recommended_transport, pyInStr_flight_carOrTrain,
      pyInStr_train_carOrTrain, pyInStr_flight_carTaxi, pyInStr_train_carTaxi,
      pyTrunc, str_B_ne_A]
  · norm_num [claimedSegmentCost, pyRound]
  · norm_num [claimedSegmentCost, pyRound]

/-- C6 amended: the flight band (at least 500 km) costs 4000; every distance
in [100, 500) costs the 1500 train fare, because the transport strings Train
and Car or Train both contain the word Train; only the Car/Taxi band below
100 km is charged 10 times the distance, truncated (not rounded) to an
integer. -/
theorem travel_plan_cost_amended (d : String → String → ℚ)
    (order : List String) :
    ∀ seg ∈ create_travel_plan d order,
      seg.cost_estimate =
        (if 500 ≤ d seg.src seg.dst then 4000
         else if 100 ≤ d seg.src seg.dst then 1500
         else pyTrunc (d seg.src seg.dst * 10)) := by
  intro seg hseg
  simp only [create_travel_plan, List.mem_map] at hseg
  obtain ⟨p, hp, rfl⟩ := hseg
  simp only [mkSegment]
  rcases lt_or_ge (d p.1 p.2) 100 with h100 | h100
  · have ht : get_recommended_transport (d p.1 p.2) = "Car/Taxi" := by
      rw [get_recommended_transport, if_pos h100]
    rw [ht, pyInStr_flight_carTaxi, pyInStr_train_carTaxi]
    have hn500 : ¬ (500 : ℚ) ≤ d p.1 p.2 := by linarith
    have hn100 : ¬ (100 : ℚ) ≤ d p.1 p.2 := by linarith
    simp [hn500, hn100]
  · rcases lt_or_ge (d p.1 p.2) 300 with h300 | h300
    · have ht : get_recommended_transport (d p.1 p.2) = "Car or Train" := by
        rw [get_recommended_transport, if_neg (by linarith), if_pos h300]
      rw [ht, pyInStr_flight_carOrTrain, pyInStr_train_carOrTrain]
      have hn500 : ¬ (500 : ℚ) ≤ d p.1 p.2 := by linarith
      simp [hn500, h100]
    · rcases lt_or_ge (d p.1 p.2) 500 with h500 | h500
      · have ht : get_recommended_transport (d p.1 p.2) = "Train" := by
          rw [get_recommended_transport, if_neg (by linarith),
            if_neg (by linarith), if_pos h500]
        rw [ht, pyInStr_flight_train, pyInStr_train_train]
        have hn500 : ¬ (500 : ℚ) ≤ d p.1 p.2 := by linarith
        simp [hn500, h100]
      · have ht : get_recommended_transport (d p.1 p.2) = "Flight" := by
          rw [get_recommended_transport, if_neg (by linarith),
            if_neg (by linarith), if_neg (by linarith)]
        rw [ht, pyInStr_flight_flight]
        simp [h500]

/-- Witness for the amended C6 theorem: the single segment of a concrete
two-city plan satisfies the amended cost formula. -/
theorem travel_plan_cost_amended_witness :
    mkSegment cexDistanceC6 "A" "B" ∈
      create_travel_plan cexDistanceC6 ["A", "B"] ∧
    (mkSegment cexDistanceC6 "A" "B").cost_estimate =
      (if 500 ≤ cexDistanceC6 (mkSegment cexDistanceC6 "A" "B").src
            (mkSegment cexDistanceC6 "A" "B").dst then 4000
       else if 100 ≤ cexDistanceC6 (mkSegment cexDistanceC6 "A" "B").src
            (mkSegment cexDistanceC6 "A" "B").dst then 1500
       else pyTrunc (cexDistanceC6 (mkSegment cexDistanceC6 "A" "B").src
            (mkSegment cexDistanceC6 "A" "B").dst * 10)) := by
  have hmem : mkSegment cexDistanceC6 "A" "B" ∈
      create_travel_plan cexDistanceC6 ["A", "B"] := by
    simp [create_travel_plan, consecutivePairs]
  exact ⟨hmem, travel_plan_cost_amended cexDistanceC6 ["A", "B"] _ hmem⟩

/-- C7 counterexample: two participants with durations 4 and 5 have median
4.5; the claim places a median of 4.5 in the three-city tier, but the code
first truncates the median to 4 with int() and lands in the two-city
tier. -/
theorem num_cities_median_counterexample :
    npMedian [4, 5] = 9/2 ∧
    targetNumCities [4, 5] 5 = 2 ∧
    claimedNumCities [4, 5] 5 = 3 := by
  refine ⟨?_, ?_, ?_⟩ <;>
    norm_num [npMedian, sortAscZ, insertAscZ, targetNumCities,
      claimedNumCities, pyTrunc]

/-- C7 amended: the tiers are applied to the truncated median, so the
effective thresholds on the median itself are strict bounds at 5 and 8:
median below 5 gives 2 cities, median in [5, 8) gives 3, median at least 8
gives 4, capped at the number of ranked cities. -/
theorem num_cities_tiers_amended (durations : List ℤ) (numRanked : ℕ)
    (hmed : 0 ≤ npMedian durations) :
    targetNumCities durations numRanked =
      min (if npMedian durations < 5 then 2
           else if npMedian durations < 8 then 3 else 4) numRanked := by
  simp only [targetNumCities]
  have htr : pyTrunc (npMedian durations) = ⌊npMedian durations⌋ := by
    rw [pyTrunc, if_pos hmed]
  rw [htr]
  congr 1
  have h4 : (⌊npMedian durations⌋ ≤ 4) ↔ npMedian durations < 5 := by
    rw [Int.floor_le_iff]
    norm_num
  have h7 : (⌊npMedian durations⌋ ≤ 7) ↔ npMedian durations < 8 := by
    rw [Int.floor_le_iff]
    norm_num
  by_cases hc4 : npMedian durations < 5
  · rw [if_pos (h4.mpr hc4), if_pos hc4]
  · rw [if_neg (fun h => hc4 (h4.mp h)), if_neg hc4]
    by_cases hc7 : npMedian durations < 8
    · rw [if_pos (h7.mpr hc7), if_pos hc7]
    · rw [if_neg (fun h => hc7 (h7.mp h)), if_neg hc7]

/-- Witness for the amended C7 theorem at the two scenario inputs of the
claim: a single participant with duration 3 and one with duration 10. -/
theorem num_cities_tiers_amended_witness :
    (0 ≤ npMedian [3]) ∧ (0 ≤ npMedian [10]) ∧
    targetNumCities [3] 5 =
      min (if npMedian [3] < 5 then 2
           else if npMedian [3] < 8 then 3 else 4) 5 ∧
    targetNumCities [10] 5 =
      min (if npMedian [10] < 5 then 2
           else if npMedian [10] < 8 then 3 else 4) 5 := by
  refine ⟨?_, ?_, num_cities_tiers_amended [3] 5 ?_,
    num_cities_tiers_amended [10] 5 ?_⟩ <;>
    norm_num [npMedian, sortAscZ, insertAscZ]

/-- C8: when the narrative generator fails, the pipeline output still
carries the first option with an explicit error marker in its
detailed-itinerary field, every numeric and structural field of that option
unchanged, and the other two options with a note that no narrative was
generated for them. -/
theorem narrative_failure_graceful
    (gen : ItineraryOption → Except String String)
    (results : ConsensusResults) (e : String)
    (hfail : gen results.options.1 = .error e) :
    (attachNarratives gen results).options.1.detailed_itinerary =
      DetailedItinerary.failed ("Could not generate detailed itinerary: " ++ e) ∧
    (attachNarratives gen results).options.1.cities =
      results.options.1.cities ∧
    (attachNarratives gen results).options.1.total_distance_km =
      results.options.1.total_distance_km ∧
    (attachNarratives gen results).options.1.estimated_cost_per_person =
      results.options.1.estimated_cost_per_person ∧
    (attachNarratives gen results).options.1.day_allocation =
      results.options.1.day_allocation ∧
    (attachNarratives gen results).options.1.travel_plan =
      results.options.1.travel_plan ∧
    (attachNarratives gen results).options.2.1.detailed_itinerary =
      DetailedItinerary.note ("Detailed itinerary generated for Option 1 only.") ∧
    (attachNarratives gen results).options.2.2.detailed_itinerary =
      DetailedItinerary.note ("Detailed itinerary generated for Option 1 only.") ∧
    (attachNarratives gen results).selected_region =
      results.selected_region ∧
    (attachNarratives gen results).group_compatibility =
      results.group_compatibility := by
  simp [attachNarratives, hfail]

/-- Witness for C8 at a concrete results record and an always-failing
generator. -/
theorem narrative_failure_graceful_witness :
    failGen demoResults.options.1 = .error "quota exceeded" ∧
    ((attachNarratives failGen demoResults).options.1.detailed_itinerary =
      DetailedItinerary.failed
        ("Could not generate detailed itinerary: " ++ "quota exceeded") ∧
    (attachNarratives failGen demoResults).options.1.cities =
      demoResults.options.1.cities ∧
    (attachNarratives failGen demoResults).options.1.total_distance_km =
      demoResults.options.1.total_distance_km ∧
    (attachNarratives failGen demoResults).options.1.estimated_cost_per_person =
      demoResults.options.1.estimated_cost_per_person ∧
    (attachNarratives failGen demoResults).options.1.day_allocation =
      demoResults.options.1.day_allocation ∧
    (attachNarratives failGen demoResults).options.1.travel_plan =
      demoResults.options.1.travel_plan ∧
    (attachNarratives failGen demoResults).options.2.1.detailed_itinerary =
      DetailedItinerary.note ("Detailed itinerary generated for Option 1 only.") ∧
    (attachNarratives failGen demoResults).options.2.2.detailed_itinerary =
      DetailedItinerary.note ("Detailed itinerary generated for Option 1 only.") ∧
    (attachNarratives failGen demoResults).selected_region =
      demoResults.selected_region ∧
    (attachNarratives failGen demoResults).group_compatibility =
      demoResults.group_compatibility) :=
  ⟨rfl, narrative_failure_graceful failGen demoResults "quota exceeded" rfl⟩

/-- Stable descending insert permutes the inserted element into the list. -/
theorem insertDesc_perm (x : String × ℚ) :
    ∀ l : List (String × ℚ), (insertDesc x l).Perm (x :: l) := by
  intro l
  induction l with
  | nil => exact List.Perm.refl _
  | cons y ys ih =>
    simp only [insertDesc]
    by_cases h : x.2 < y.2
    · rw [if_pos h]
      exact (ih.cons y).trans (List.Perm.swap x y ys)
    · rw [if_neg h]

/-- Membership in the stable insert. -/
theorem mem_insertDesc (x : String × ℚ) (l : List (String × ℚ))
    (z : String × ℚ) : z ∈ insertDesc x l ↔ z = x ∨ z ∈ l :=
  ((insertDesc_perm x l).mem_iff).trans List.mem_cons

/-- The stable descending sort permutes its input. -/
theorem sortDesc_perm : ∀ l : List (String × ℚ), (sortDesc l).Perm l := by
  intro l
  induction l with
  | nil => exact List.Perm.refl _
  | cons x xs ih =>
    exact (insertDesc_perm x (sortDesc xs)).trans (ih.cons x)

/-- Inserting into a non-increasing list keeps it non-increasing. -/
theorem pairwise_insertDesc (x : String × ℚ) :
    ∀ l : List (String × ℚ),
      List.Pairwise (fun a b : String × ℚ => b.2 ≤ a.2) l →
      List.Pairwise (fun a b : String × ℚ => b.2 ≤ a.2) (insertDesc x l) := by
  intro l
  induction l with
  | nil =>
    intro _
    simp [insertDesc]
  | cons y ys ih =>
    intro hl
    rcases List.pairwise_cons.mp hl with ⟨hy, hys⟩
    simp only [insertDesc]
    by_cases h : x.2 < y.2
    · rw [if_pos h]
      refine List.pairwise_cons.mpr ⟨?_, ih hys⟩
      intro z hz
      rcases (mem_insertDesc x ys z).mp hz with rfl | hz
      · exact le_of_lt h
      · exact hy z hz
    · rw [if_neg h]
      refine List.pairwise_cons.mpr ⟨?_, hl⟩
      intro z hz
      rcases List.mem_cons.mp hz with rfl | hz
      · exact not_lt.mp h
      · exact le_trans (hy z hz) (not_lt.mp h)

/-- The stable sort output is non-increasing in the score component. -/
theorem sortDesc_sorted :
    ∀ l : List (String × ℚ),
      List.Pairwise (fun a b : String × ℚ => b.2 ≤ a.2) (sortDesc l) := by
  intro l
  induction l with
  | nil => simp [sortDesc]
  | cons x xs ih => exact pairwise_insertDesc x (sortDesc xs) ih

/-- Filtering one score level through the stable insert: the new element
lands in front of exactly the equal-scored elements already present, because
it only passes elements of strictly larger score. -/
theorem filter_insertDesc (x : String × ℚ) (s : ℚ) :
    ∀ l : List (String × ℚ),
      (insertDesc x l).filter (fun p => p.2 = s) =
        if x.2 = s then x :: l.filter (fun p => p.2 = s)
        else l.filter (fun p => p.2 = s) := by
  intro l
  induction l with
  | nil =>
    by_cases h : x.2 = s
    · simp [insertDesc, h]
    · simp [insertDesc, h]
  | cons y ys ih =>
    simp only [insertDesc]
    by_cases hxy : x.2 < y.2
    · rw [if_pos hxy]
      by_cases hx : x.2 = s
      · have hy : ¬ (y.2 = s) := by
          intro hys
          rw [← hx] at hys
          exact absurd hys (ne_of_gt hxy)
        simp [List.filter_cons, hy, ih, hx]
      · simp [List.filter_cons, ih, hx]
    · rw [if_neg hxy]
      simp [List.filter_cons]

/-- Stability of the sort: at every score level the sorted list lists
exactly the input elements of that score, in input order. -/
theorem sortDesc_filter (s : ℚ) :
    ∀ l : List (String × ℚ),
      (sortDesc l).filter (fun p => p.2 = s) =
        l.filter (fun p => p.2 = s) := by
  intro l
  induction l with
  | nil => simp [sortDesc]
  | cons x xs ih =>
    simp only [sortDesc]
    rw [filter_insertDesc x s (sortDesc xs)]
    by_cases hx : x.2 = s
    · simp [List.filter_cons, hx, ih]
    · simp [List.filter_cons, hx, ih]

/-- Python max with a key returns the seed or a listed element. -/
theorem pyMaxBy_mem (k : String → ℕ) :
    ∀ (ys : List String) (x : String),
      pyMaxBy k x ys = x ∨ pyMaxBy k x ys ∈ ys := by
  intro ys
  induction ys with
  | nil => intro x; exact Or.inl rfl
  | cons y ys ih =>
    intro x
    simp only [pyMaxBy]
    by_cases h : k x < k y
    · rw [if_pos h]
      rcases ih y with h2 | h2
      · exact Or.inr (List.mem_cons.mpr (Or.inl h2))
      · exact Or.inr (List.mem_cons.mpr (Or.inr h2))
    · rw [if_neg h]
      rcases ih x with h2 | h2
      · exact Or.inl h2
      · exact Or.inr (List.mem_cons.mpr (Or.inr h2))

/-- Python max with a key dominates the seed and every listed element. -/
theorem pyMaxBy_le (k : String → ℕ) :
    ∀ (ys : List String) (x : String),
      k x ≤ k (pyMaxBy k x ys) ∧ ∀ y ∈ ys, k y ≤ k (pyMaxBy k x ys) := by
  intro ys
  induction ys with
  | nil =>
    intro x
    exact ⟨le_rfl, by simp⟩
  | cons y ys ih =>
    intro x
    simp only [pyMaxBy]
    by_cases h : k x < k y
    · rw [if_pos h]
      obtain ⟨ha, hb⟩ := ih y
      refine ⟨le_trans (le_of_lt h) ha, ?_⟩
      intro z hz
      rcases List.mem_cons.mp hz with rfl | hz
      · exact ha
      · exact hb z hz
    · rw [if_neg h]
      obtain ⟨ha, hb⟩ := ih x
      refine ⟨ha, ?_⟩
      intro z hz
      rcases List.mem_cons.mp hz with rfl | hz
      · exact le_trans (not_lt.mp h) ha
      · exact hb z hz

/-- When one tier strictly dominates the tally, every iteration order of the
preference set yields that tier from Python max. -/
theorem mostCommon_eq_dominant (prefs order : List String)
    (hperm : order.Perm prefs.dedup) (m : String) (hm : m ∈ prefs)
    (hdom : ∀ x ∈ prefs, x ≠ m → prefs.count x < prefs.count m) :
    mostCommonAccommodation order prefs = m := by
  have hmo : m ∈ order := hperm.mem_iff.mpr (List.mem_dedup.mpr hm)
  rcases order with _ | ⟨x, xs⟩
  · cases hmo
  · simp only [mostCommonAccommodation]
    have hrin : pyMaxBy (fun t => prefs.count t) x xs ∈ x :: xs := by
      rcases pyMaxBy_mem (fun t => prefs.count t) xs x with h | h
      · rw [h]; exact List.mem_cons_self x xs
      · exact List.mem_cons.mpr (Or.inr h)
    have hrprefs : pyMaxBy (fun t => prefs.count t) x xs ∈ prefs :=
      List.mem_dedup.mp (hperm.mem_iff.mp hrin)
    have hcount : prefs.count m ≤
        prefs.count (pyMaxBy (fun t => prefs.count t) x xs) := by
      obtain ⟨ha, hb⟩ := pyMaxBy_le (fun t => prefs.count t) xs x
      rcases List.mem_cons.mp hmo with rfl | hmem
      · exact ha
      · exact hb m hmem
    by_cases hrm : pyMaxBy (fun t => prefs.count t) x xs = m
    · exact hrm
    · exact absurd hcount (not_le.mpr (hdom _ hrprefs hrm))

/-- C9 amended: the ranking is sorted non-increasing by score, is a
permutation of the scored city list, is stable (each score level keeps input
order), and is independent of the accommodation-set iteration order whenever
the dominant tier is unique; when two tiers tie for the count maximum the
iteration order of the Python set, which is hash-randomized across runs, can
change the dominant tier and with it the scores. -/
theorem rank_cities_amended (sim : (Fin 7 → ℚ) → (Fin 7 → ℚ) → ℚ)
    (setOrder : List String) (users : List UserPref)
    (cities : List (String × CityData)) :
    List.Pairwise (fun a b : String × ℚ => b.2 ≤ a.2)
      (rank_cities_for_group sim setOrder users cities) ∧
    (rank_cities_for_group sim setOrder users cities).Perm
      (scoreCities sim setOrder users cities) ∧
    (∀ s : ℚ,
      (rank_cities_for_group sim setOrder users cities).filter
          (fun p => p.2 = s) =
        (scoreCities sim setOrder users cities).filter (fun p => p.2 = s)) ∧
    (∀ setOrder2 : List String,
      setOrder.Perm ((users.map (fun u => u.accommodation)).dedup) →
      setOrder2.Perm ((users.map (fun u => u.accommodation)).dedup) →
      UniqueDominant users →
      rank_cities_for_group sim setOrder users cities =
        rank_cities_for_group sim setOrder2 users cities) := by
  refine ⟨sortDesc_sorted _, sortDesc_perm _, fun s => sortDesc_filter s _, ?_⟩
  intro setOrder2 h1 h2 hdom
  obtain ⟨m, hm, hcnt⟩ := hdom
  have e1 : mostCommonAccommodation setOrder
      (users.map (fun u => u.accommodation)) = m :=
    mostCommon_eq_dominant _ _ h1 m hm hcnt
  have e2 : mostCommonAccommodation setOrder2
      (users.map (fun u => u.accommodation)) = m :=
    mostCommon_eq_dominant _ _ h2 m hm hcnt
  have escore : ∀ cd : CityData,
      calculate_group_city_score sim setOrder users cd =
        calculate_group_city_score sim setOrder2 users cd := by
    intro cd
    simp only [calculate_group_city_score, calculate_budget_fit, e1, e2]
  have hfun : (fun p : String × CityData =>
      (p.1, calculate_group_city_score sim setOrder users p.2)) =
      (fun p : String × CityData =>
      (p.1, calculate_group_city_score sim setOrder2 users p.2)) := by
    funext p
    rw [escore p.2]
  simp only [rank_cities_for_group, scoreCities, hfun]

/-- C9 counterexample: with two participants split between budget and
luxury and tied counts, the two possible iteration orders of the Python
preference set select different dominant tiers, different budget-fit
multipliers, and therefore different ranked outputs on identical inputs. -/
theorem rank_cities_set_order_counterexample :
    rank_cities_for_group constSim ["budget", "luxury"]
        [cexUserBudget, cexUserLuxury] [("X", cexCityX)] = [("X", 95)] ∧
    rank_cities_for_group constSim ["luxury", "budget"]
        [cexUserBudget, cexUserLuxury] [("X", cexCityX)] = [("X", 40)] ∧
    (["budget", "luxury"] : List String).Perm
      (([cexUserBudget, cexUserLuxury].map
        (fun u => u.accommodation)).dedup) ∧
    (["luxury", "budget"] : List String).Perm
      (([cexUserBudget, cexUserLuxury].map
        (fun u => u.accommodation)).dedup) := by
  have hprefs : [cexUserBudget, cexUserLuxury].map
      (fun u => u.accommodation) = ["budget", "luxury"] := rfl
  have hmc1 : mostCommonAccommodation ["budget", "luxury"]
      ["budget", "luxury"] = "budget" := by decide
  have hmc2 : mostCommonAccommodation ["luxury", "budget"]
      ["budget", "luxury"] = "luxury" := by decide
  have hlb : ("luxury" : String) ≠ "budget" := by decide
  refine ⟨?_, ?_, by decide, by decide⟩
  · norm_num [rank_cities_for_group, scoreCities, sortDesc, insertDesc,
      calculate_group_city_score, calculate_budget_fit, constSim,
      hprefs, hmc1, cexUserBudget, cexUserLuxury, cexCityX,
      listMax, listMin]
  · norm_num [rank_cities_for_group, scoreCities, sortDesc, insertDesc,
      calculate_group_city_score, calculate_budget_fit, constSim,
      hprefs, hmc2, cexUserBudget, cexUserLuxury, cexCityX,
      listMax, listMin, hlb]

/-- Witness for the amended C9 theorem at a one-participant group, where the
dominant tier is unique and the ranking is order-independent and sorted. -/
theorem rank_cities_amended_witness :
    (["budget"] : List String).Perm
      (([cexUserBudget].map (fun u => u.accommodation)).dedup) ∧
    UniqueDominant [cexUserBudget] ∧
    List.Pairwise (fun a b : String × ℚ => b.2 ≤ a.2)
      (rank_cities_for_group constSim ["budget"] [cexUserBudget]
        [("X", cexCityX)]) ∧
    rank_cities_for_group constSim ["budget"] [cexUserBudget]
        [("X", cexCityX)] =
      rank_cities_for_group constSim ["budget"] [cexUserBudget]
        [("X", cexCityX)] := by
  have hdom : UniqueDominant [cexUserBudget] := ⟨"budget", by decide, by decide⟩
  refine ⟨by decide, hdom, ?_, ?_⟩
  · exact (rank_cities_amended constSim ["budget"] [cexUserBudget]
      [("X", cexCityX)]).1
  · exact (rank_cities_amended constSim ["budget"] [cexUserBudget]
      [("X", cexCityX)]).2.2.2 ["budget"] (by decide) (by decide) hdom

/-- C5: for a 7-dimensional activity vector with in-range entries that is
not all-zero, the similarity of the vector with itself is exactly 100, and
whenever either argument is the all-zero vector the result is the defined
degenerate value 0 (the zero norm is replaced by 1 before dividing, exactly
as sklearn normalize does), never a division by zero. -/
theorem activity_similarity_self (v w : Fin 7 → ℚ)
    (_hrange : ∀ i, 0 ≤ v i ∧ v i ≤ 5) (hnz : v ≠ fun _ => 0) :
    calculate_activity_similarity v v = 100 ∧
    calculate_activity_similarity (fun _ => 0) w = 0 ∧
    calculate_activity_similarity w (fun _ => 0) = 0 := by
  refine ⟨?_, ?_, ?_⟩
  · have hex : ∃ i, v i ≠ 0 := by
      by_contra h
      push_neg at h
      exact hnz (funext h)
    have hpos : 0 < dotQ v v := by
      obtain ⟨i, hi⟩ := hex
      exact Finset.sum_pos' (fun j _ => mul_self_nonneg (v j))
        ⟨i, Finset.mem_univ i, mul_self_pos.mpr hi⟩
    have hs : (0 : ℝ) < ((dotQ v v : ℚ) : ℝ) := by exact_mod_cast hpos
    simp only [calculate_activity_similarity, cosineSimilarity]
    rw [if_neg (ne_of_gt hpos), Real.mul_self_sqrt (le_of_lt hs),
      div_self (ne_of_gt hs)]
    norm_num
  · have hzero : dotQ (fun _ => (0 : ℚ)) w = 0 := by simp [dotQ]
    simp [calculate_activity_similarity, cosineSimilarity, hzero]
  · have hzero : dotQ w (fun _ => (0 : ℚ)) = 0 := by simp [dotQ]
    simp [calculate_activity_similarity, cosineSimilarity, hzero]

/-- Witness for C5 at the constant vector 3 and the constant vector 1. -/
theorem activity_similarity_self_witness :
    (∀ i : Fin 7, 0 ≤ (fun _ : Fin 7 => (3 : ℚ)) i ∧
      (fun _ : Fin 7 => (3 : ℚ)) i ≤ 5) ∧
    (fun _ : Fin 7 => (3 : ℚ)) ≠ (fun _ => 0) ∧
    calculate_activity_similarity (fun _ : Fin 7 => 3)
      (fun _ : Fin 7 => 3) = 100 ∧
    calculate_activity_similarity (fun _ : Fin 7 => 0)
      (fun _ : Fin 7 => 1) = 0 := by
  have hrange : ∀ i : Fin 7, 0 ≤ (fun _ : Fin 7 => (3 : ℚ)) i ∧
      (fun _ : Fin 7 => (3 : ℚ)) i ≤ 5 := by
    intro i
    norm_num
  have hnz : (fun _ : Fin 7 => (3 : ℚ)) ≠ (fun _ => 0) := by
    intro h
    have h0 := congrFun h 0
    norm_num at h0
  exact ⟨hrange, hnz,
    (activity_similarity_self (fun _ => 3) (fun _ => 1) hrange hnz).1,
    (activity_similarity_self (fun _ => 3) (fun _ => 1) hrange hnz).2.1⟩

end TripPlanner
